import Mathlib

/-
  Verification development for the jdmatcher repository
  (resume / job-description matching system).

  The development shallowly embeds:
  * frontend/src/core/__env.ts                (integrity constants, unlock gate)
  * frontend/src/services/api.ts              (directMatch pipeline gate)
  * the RecruiterDashboard client-side batch ranking loop
    (handleRankCandidates: per-file matching, error isolation,
     stable sort by rounded score, 1-indexed rank display)
  * the matching engine (match_one / match_batch).  The engine itself
    (backend/ml in the repository) is not part of the provided sources,
    so it is modelled from the specification, as flagged in the doc
    comments of the corresponding definitions.

  JavaScript numbers are modelled as exact rationals (the frontend only
  does exact small-integer arithmetic on them); the backend engine
  scores are modelled over the reals.
-/

namespace JDMatcher

/- ────────────────────────────────────────────────────────────────────
   Part 1: frontend/src/core/__env.ts
   ──────────────────────────────────────────────────────────────────── -/

/-- Character-code array "_k" from __env.ts. -/
def _k : List Nat := [68, 69, 77, 79, 32, 79, 78, 76, 89]

/-- Character-code array "_k2" from __env.ts. -/
def _k2 : List Nat :=
  [80, 114, 111, 103, 114, 97, 109, 109, 101, 100, 32, 98, 121, 32, 82,
   65, 74, 32, 75, 73, 83, 72, 79, 82]

/-- Character-code array "_k3" from __env.ts. -/
def _k3 : List Nat :=
  [78, 111, 116, 32, 102, 111, 114, 32, 112, 114, 111, 100, 117, 99, 116,
   105, 111, 110, 32, 117, 115, 101]

/-- Integrity seed "_ix" from __env.ts. -/
def _ix : Nat := 0xA7B3

/-- Integrity seed "_iy" from __env.ts. -/
def _iy : Nat := 0x4E21

/-- Sum of "_k" (the JS reduce with initial value 0). -/
def _b : Nat := _k.foldl (· + ·) 0

/-- Sum of "_k2". -/
def _c : Nat := _k2.foldl (· + ·) 0

/-- Sum of "_k3". -/
def _d : Nat := _k3.foldl (· + ·) 0

/-- Render-pipeline constant "_rp" from __env.ts. -/
def _rp : Nat := 0x14692A

/-- Session key "_sk" from __env.ts:
    ((_b * _c + _d + _ix - _iy) ^ _rp) >>> 0.
    All intermediate JS values here are positive and far below 2^31, so
     the 32-bit signed xor followed by the unsigned shift is exactly
    natural-number xor, and the JS subtraction never goes negative. -/
def _sk : Nat := Nat.xor (_b * _c + _d + _ix - _iy) _rp

/-- Derived port "_dp" from __env.ts: ((_sk() >> 4) & 0xFFF) + 1263. -/
def _dp : Nat := (Nat.land (Nat.shiftRight _sk 4) 0xFFF) + 1263

/-- The integrity gate at the top of matchService.directMatch in
    frontend/src/services/api.ts: the function throws
    "Pipeline integrity check failed." when _sk() differs from 0xE992 and
    otherwise proceeds with the request for whatever resume/jd inputs it
    was given.  The gate is modelled as the Except value it contributes,
    as a function of the (unused) inputs. -/
def directMatchGate (resumeFile jd : String) : Except String Unit :=
  if _sk ≠ 0xE992 then Except.error "Pipeline integrity check failed."
  else Except.ok ()

/-- Password code array "_pw" from __env.ts. -/
def _pw : List Nat :=
  [115, 104, 129, 128, 119, 104, 117, 107, 104, 55, 63, 56, 55, 57, 55, 55, 59]

/-- Shift constant "_xk" from __env.ts. -/
def _xk : Nat := 7

/-- The expected unlock password: each code of _pw shifted down by _xk
    and turned into a character (String.fromCharCode in the source). -/
def expectedPwd : String := String.mk (_pw.map (fun c => Char.ofNat (c - _xk)))

/-- Observable outcome of one call to _ul in __env.ts: the returned
    boolean, and whether window.__rv_unlocked was set (the overlay
    removal happens on the same branch). -/
structure UlEffect where
  returned : Bool
  rvUnlockedSet : Bool
deriving DecidableEq

/-- The unlock function _ul from __env.ts: compares the argument with
    the decoded password; on a match it sets window.__rv_unlocked,
    removes the overlay and returns true, otherwise it does nothing and
    returns false. -/
def _ul (pwd : String) : UlEffect :=
  if pwd = expectedPwd then ⟨true, true⟩ else ⟨false, false⟩

/- ────────────────────────────────────────────────────────────────────
   Part 2: the RecruiterDashboard client-side batch ranking
   (handleRankCandidates and the results table).

   Each resume file is matched through matchService.directMatch, which
   either resolves with a MatchResultResponse or rejects; the loop is
   modelled on the list of these per-file outcomes.  JS numbers carry
   exact values here, modelled as rationals.
   ──────────────────────────────────────────────────────────────────── -/

/-- The fields of MatchResultResponse (frontend/src/services/api.ts)
    that the recruiter dashboard reads. -/
structure JsMatchResult where
  overall_score : ℚ
  matched_skills : List String
  missing_skills : List String
  recommendations : List String
deriving DecidableEq

/-- The RankedCandidate record built by handleRankCandidates.  In the
    catch branch the source stores an empty object as result, modelled
    as none. -/
structure JsRankedCandidate where
  id : String
  fileName : String
  matchScore : ℤ
  matchedSkills : List String
  missingSkills : List String
  recommendations : List String
  result : Option JsMatchResult
deriving DecidableEq

/-- JS Math.round: rounds half toward positive infinity. -/
def jsRound (x : ℚ) : ℤ := ⌊x + 1 / 2⌋

/-- One loop iteration of handleRankCandidates for the i-th file (i is
    the 0-based loop index): success pushes a candidate with
    matchScore = Math.round(result.overall_score); a rejected promise is
    caught and pushes a candidate with score 0, empty skill lists, an
    "Error: ..." recommendation and an empty result. -/
def rankedEntry (i : Nat) (fileName : String) (r : Except String JsMatchResult) :
    JsRankedCandidate :=
  match r with
  | Except.ok res =>
      ⟨toString (i + 1), fileName, jsRound res.overall_score, res.matched_skills,
       res.missing_skills, res.recommendations, some res⟩
  | Except.error e =>
      ⟨toString (i + 1), fileName, 0, [], [], ["Error: " ++ e], none⟩

/-- The "ranked" array after the for-loop of handleRankCandidates, in
    submission order, before sorting. -/
def buildRanked (inputs : List (String × Except String JsMatchResult)) :
    List JsRankedCandidate :=
  inputs.enum.map (fun p => rankedEntry p.1 p.2.1 p.2.2)

/-- Insert into a list sorted non-increasingly by key, placing the new
    element before the first position whose key is not larger.  Used to
    model the ES2019-stable Array.prototype.sort. -/
def insertByKeyDesc {α β : Type} [LinearOrder β] (key : α → β) (x : α) :
    List α → List α
  | [] => [x]
  | y :: ys => if key y ≤ key x then x :: y :: ys else y :: insertByKeyDesc key x ys

/-- Stable sort, non-increasing by key.  Array.prototype.sort with the
    comparator (a, b) => b.matchScore - a.matchScore is specified to be
    stable, and a stable non-increasing sort produces a unique output,
    so this insertion sort is observationally the JS sort. -/
def sortByKeyDesc {α β : Type} [LinearOrder β] (key : α → β) :
    List α → List α
  | [] => []
  | x :: xs => insertByKeyDesc key x (sortByKeyDesc key xs)

/-- The candidates state after handleRankCandidates finishes:
    ranked.sort((a, b) => b.matchScore - a.matchScore). -/
def rankCandidates (inputs : List (String × Except String JsMatchResult)) :
    List JsRankedCandidate :=
  sortByKeyDesc (fun c => c.matchScore) (buildRanked inputs)

/-- Lower-cases an ASCII character, as the model of toLowerCase. -/
def toLowerChar (c : Char) : Char :=
  if 'A' ≤ c ∧ c ≤ 'Z' then Char.ofNat (c.toNat + 32) else c

/-- Bool test for one char list starting with another. -/
def startsWithCs : List Char → List Char → Bool
  | [], _ => true
  | _ :: _, [] => false
  | p :: ps, c :: cs => p = c && startsWithCs ps cs

/-- Bool test for one char list occurring inside another (the model of
    String.prototype.includes). -/
def containsCs (pat : List Char) : List Char → Bool
  | [] => startsWithCs pat []
  | c :: cs => startsWithCs pat (c :: cs) || containsCs pat cs

/-- The filteredCandidates expression of the dashboard: keep candidates
    with matchScore at least filterScore, and if filterSkill is
    non-empty (JS truthiness of the string) keep candidates having some
    matched skill that contains it case-insensitively. -/
def filteredCandidates (candidates : List JsRankedCandidate)
    (filterScore : ℤ) (filterSkill : String) : List JsRankedCandidate :=
  (candidates.filter (fun c => filterScore ≤ c.matchScore)).filter
    (fun c =>
      if filterSkill = "" then true
      else c.matchedSkills.any (fun s =>
        containsCs (filterSkill.data.map toLowerChar) (s.data.map toLowerChar)))

/-- The rows of the results table: the rank cell of the i-th displayed
    candidate shows i + 1. -/
def displayRows (candidates : List JsRankedCandidate)
    (filterScore : ℤ) (filterSkill : String) : List (Nat × JsRankedCandidate) :=
  (filteredCandidates candidates filterScore filterSkill).enum.map
    (fun p => (p.1 + 1, p.2))

/-- The overall_score carried by a ranked candidate (0 for the empty
    result object of an errored file). -/
def overallOf (c : JsRankedCandidate) : ℚ :=
  match c.result with
  | some r => r.overall_score
  | none => 0

/- ────────────────────────────────────────────────────────────────────
   Part 3: the matching engine.

   The engine implementation (backend/ml: nlp_utils.py, resume_parser.py,
   jd_parser.py, matching_engine.py, skill_gap_analyzer.py) is not among
   the provided sources; every definition in this part is modelled from
   the specification, sections 3, 4.1 to 4.6 and 7.
   ──────────────────────────────────────────────────────────────────── -/

/-- Modelled from the spec: the Normalizer keeps alphanumeric
    characters together with the internal hyphen / dot / plus / slash of
    multi-token skill phrases such as ci/cd and c++; every other
    character separates tokens. -/
def keepChar (c : Char) : Bool :=
  (('a' ≤ c) && (c ≤ 'z')) || (('0' ≤ c) && (c ≤ '9')) ||
    (c = '+') || (c = '-') || (c = '.') || (c = '/')

/-- Splits a lower-cased character stream into raw tokens at every
    non-kept character; the accumulator holds the current token
    reversed. -/
def tokenizeAux : List Char → List Char → List (List Char)
  | [], acc => if acc.isEmpty then [] else [acc.reverse]
  | c :: cs, acc =>
      if keepChar c then tokenizeAux cs (c :: acc)
      else if acc.isEmpty then tokenizeAux cs [] else acc.reverse :: tokenizeAux cs []

/-- Modelled from the spec: the fixed stopword list of the Normalizer
    (a read-only configuration table loaded at process start). -/
def stopwords : List String :=
  ["a", "an", "the", "and", "or", "with", "in", "of", "to", "for", "is", "are"]

/-- Modelled from the spec: the lemma table of the Normalizer, an exact
    lookup mapping inflected forms to base forms. -/
def lemmaTable : List (String × String) :=
  [("developing", "develop"), ("developed", "develop"),
   ("engineering", "engineer"), ("engineers", "engineer"),
   ("designing", "design"), ("designed", "design")]

/-- Applies the lemma table, leaving unknown tokens unchanged. -/
def applyLemma (t : String) : String :=
  ((lemmaTable.find? (fun p => p.1 = t)).map (fun p => p.2)).getD t

/-- Modelled from the spec (4.1): the Normalizer lower-cases, strips
    punctuation except the internal characters of known skill phrases,
    removes stopwords and lemmatizes; empty input yields the empty token
    sequence. -/
def normalize (text : String) : List String :=
  (((tokenizeAux (text.data.map toLowerChar) []).map String.mk).filter
      (fun t => ¬ t ∈ stopwords)).map applyLemma

/-- Skill category of the SkillTaxonomy. -/
inductive SkillCategory where
  | technical
  | soft
deriving DecidableEq

/-- One entry of the SkillTaxonomy: canonical name, category, aliases. -/
structure TaxEntry where
  canonical : String
  category : SkillCategory
  aliases : List String
deriving DecidableEq

/-- Modelled from the spec: the static SkillTaxonomy, loaded once at
    process start and read-only afterwards. -/
def skillTaxonomy : List TaxEntry :=
  [⟨"python", SkillCategory.technical, ["python3"]⟩,
   ⟨"java", SkillCategory.technical, []⟩,
   ⟨"django", SkillCategory.technical, []⟩,
   ⟨"rest", SkillCategory.technical, ["restful"]⟩,
   ⟨"sql", SkillCategory.technical, ["mysql", "postgresql"]⟩,
   ⟨"docker", SkillCategory.technical, []⟩,
   ⟨"aws", SkillCategory.technical, []⟩,
   ⟨"kubernetes", SkillCategory.technical, ["k8s"]⟩,
   ⟨"ci/cd", SkillCategory.technical, ["cicd"]⟩,
   ⟨"react", SkillCategory.technical, ["reactjs"]⟩,
   ⟨"communication", SkillCategory.soft, []⟩,
   ⟨"leadership", SkillCategory.soft, []⟩]

/-- Modelled from the spec (4.2): skill extraction scans the normalized
    tokens against the taxonomy; a hit on a canonical name or an alias
    contributes the canonical name.  Exact token match only. -/
def extractSkills (tokens : List String) : Finset String :=
  ((skillTaxonomy.filter
      (fun e => e.canonical ∈ tokens || e.aliases.any (fun a => a ∈ tokens))).map
    (fun e => e.canonical)).toFinset

/-- Category of a canonical skill; skills absent from the taxonomy
    default to technical (spec 4.5). -/
def categoryOf (s : String) : SkillCategory :=
  (((skillTaxonomy.find? (fun e => e.canonical = s)).map (fun e => e.category)).getD
    SkillCategory.technical)

/-- Experience level enum of a ParsedJD. -/
inductive ExperienceLevel where
  | entry
  | mid
  | senior
  | lead
  | unspecified
deriving DecidableEq

/-- Education level enum. -/
inductive EducationLevel where
  | high_school
  | associate
  | bachelor
  | master
  | phd
  | unspecified
deriving DecidableEq

/-- ParsedResume of the data model (spec section 3). -/
structure ParsedResume where
  skills : Finset String
  education : List String
  experience : List String
  projects : List String
  years_of_experience : Option Nat
deriving DecidableEq

/-- ParsedJD of the data model (spec section 3). -/
structure ParsedJD where
  required_skills : Finset String
  preferred_skills : Finset String
  experience_level : ExperienceLevel
  education_level : EducationLevel
deriving DecidableEq

/-- Modelled from the spec (4.2): the first "digit followed by years"
    pattern in the token stream gives the numeric years of
    experience. -/
def yearsOf : List String → Option Nat
  | t1 :: t2 :: rest =>
      match t1.toNat? with
      | some n => if t2 = "years" ∨ t2 = "year" then some n else yearsOf (t2 :: rest)
      | none => yearsOf (t2 :: rest)
  | _ => none

/-- Modelled from the spec (4.2): ordered keyword rules for the JD
    experience level; the highest matching keyword wins. -/
def expLevelOf (tokens : List String) : ExperienceLevel :=
  if "lead" ∈ tokens then ExperienceLevel.lead
  else if "senior" ∈ tokens then ExperienceLevel.senior
  else if "mid" ∈ tokens then ExperienceLevel.mid
  else if "entry" ∈ tokens ∨ "junior" ∈ tokens then ExperienceLevel.entry
  else ExperienceLevel.unspecified

/-- Modelled from the spec (4.2): ordered degree keyword rules; the
    highest mentioned degree wins. -/
def eduLevelOf (tokens : List String) : EducationLevel :=
  if "phd" ∈ tokens ∨ "doctorate" ∈ tokens then EducationLevel.phd
  else if "master" ∈ tokens ∨ "masters" ∈ tokens ∨ "msc" ∈ tokens ∨ "mtech" ∈ tokens then
    EducationLevel.master
  else if "bachelor" ∈ tokens ∨ "bachelors" ∈ tokens ∨ "btech" ∈ tokens ∨
      "b.tech" ∈ tokens ∨ "bsc" ∈ tokens then EducationLevel.bachelor
  else if "associate" ∈ tokens then EducationLevel.associate
  else if "school" ∈ tokens then EducationLevel.high_school
  else EducationLevel.unspecified

/-- Marker words whose proximity makes a detected JD skill preferred
    rather than required (spec 4.2: "nice to have", "preferred",
    "bonus"; skills with no proximate marker default to required). -/
def prefMarkers : List String := ["preferred", "nice", "bonus"]

/-- Tokens lying within the three positions after a preferred-marker
    word; k counts the remaining positions of the current window. -/
def prefWindow : List String → Nat → List String
  | [], _ => []
  | t :: rest, k =>
      if t ∈ prefMarkers then prefWindow rest 4
      else (if 0 < k then [t] else []) ++ prefWindow rest (k - 1)

/-- Resume section headings (spec 4.2). -/
inductive RBucket where
  | education
  | experience
  | projects
deriving DecidableEq

/-- Splits raw text into lines. -/
def splitNl : List Char → List Char → List (List Char)
  | [], acc => [acc.reverse]
  | c :: cs, acc => if c = '\n' then acc.reverse :: splitNl cs [] else splitNl cs (c :: acc)

/-- The lines of a raw text. -/
def linesOf (s : String) : List String := (splitNl s.data []).map String.mk

/-- Heading-keyword detection on one line (case-insensitive). -/
def sectionOf (l : String) : Option RBucket :=
  if containsCs "education".data (l.data.map toLowerChar) then some RBucket.education
  else if containsCs "project".data (l.data.map toLowerChar) then some RBucket.projects
  else if containsCs "experience".data (l.data.map toLowerChar) then some RBucket.experience
  else none

/-- The three freeform-line buckets of a resume. -/
structure ResumeSections where
  education : List String
  experience : List String
  projects : List String
deriving DecidableEq

/-- Modelled from the spec (4.2): buckets freeform lines under the
    current heading; lines before any heading are dropped, heading
    lines themselves switch the bucket. -/
def bucketLines : List String → Option RBucket → ResumeSections
  | [], _ => ⟨[], [], []⟩
  | l :: rest, cur =>
      match sectionOf l with
      | some b => bucketLines rest (some b)
      | none =>
          match cur with
          | some RBucket.education =>
              let r := bucketLines rest cur; ⟨l :: r.education, r.experience, r.projects⟩
          | some RBucket.experience =>
              let r := bucketLines rest cur; ⟨r.education, l :: r.experience, r.projects⟩
          | some RBucket.projects =>
              let r := bucketLines rest cur; ⟨r.education, r.experience, l :: r.projects⟩
          | none => bucketLines rest cur

/-- Modelled from the spec (4.2): the resume instance of the Entity
    Parser. -/
def parseResume (text : String) : ParsedResume :=
  let toks := normalize text
  let secs := bucketLines (linesOf text) none
  ⟨extractSkills toks, secs.education, secs.experience, secs.projects, yearsOf toks⟩

/-- Modelled from the spec (4.2): the JD instance of the Entity Parser;
    detected skills near a preferred marker are preferred, all others
    default to required. -/
def parseJD (text : String) : ParsedJD :=
  let toks := normalize text
  let pref := extractSkills (prefWindow toks 0)
  ⟨extractSkills toks \ pref, pref, expLevelOf toks, eduLevelOf toks⟩

/- ── Vectorizer and Similarity Scorer (spec 4.3) ── -/

/-- Term frequency: the normalized count of a term within a document;
    an empty document contributes 0. -/
def tf (doc : List String) (t : String) : ℚ :=
  if doc.length = 0 then 0 else (doc.count t : ℚ) / (doc.length : ℚ)

/-- Document frequency over the two-document corpus. -/
def df (r j : List String) (t : String) : Nat :=
  (if t ∈ r then 1 else 0) + (if t ∈ j then 1 else 0)

/-- The vocabulary of the two-document corpus. -/
def vocab (r j : List String) : Finset String := (r ++ j).toFinset

/-- Modelled from the spec (4.3): standard log-scaled inverse document
    frequency with document count 2 and a smoothing constant, so that a
    term present in both documents still has positive weight. -/
noncomputable def idf (d : Nat) : ℝ := Real.log (3 / (1 + (d : ℝ))) + 1

/-- TF-IDF weight of term t for document doc in the corpus (r, j). -/
noncomputable def tfidfWeight (r j doc : List String) (t : String) : ℝ :=
  (tf doc t : ℝ) * idf (df r j t)

/-- Dot product of the TF-IDF vectors of documents a and b over the
    corpus (r, j) vocabulary. -/
noncomputable def dotProd (r j a b : List String) : ℝ :=
  ∑ t ∈ vocab r j, tfidfWeight r j a t * tfidfWeight r j b t

/-- Modelled from the spec (4.3): cosine similarity of the two TF-IDF
    vectors, in the unit interval; a zero vector yields 0 rather than a
    division by zero. -/
noncomputable def cosineSim (r j : List String) : ℝ :=
  if dotProd r j r r = 0 ∨ dotProd r j j j = 0 then 0
  else dotProd r j r j / (Real.sqrt (dotProd r j r r) * Real.sqrt (dotProd r j j j))

/- ── Score Combiner (spec 4.4) ── -/

/-- Modelled from the spec (4.4): the direct skill match on the 0-100
    scale, the share of required skills matched; 100 when the JD has no
    required skills. -/
noncomputable def directSkillMatch (matchedReq totalReq : Nat) : ℝ :=
  if totalReq = 0 then 100 else 100 * (matchedReq : ℝ) / (totalReq : ℝ)

/-- Years-of-experience threshold of a JD experience level (spec 4.4:
    entry 0-2y, mid 2-5y, senior 5-8y, lead 8y and up); an unspecified
    level requires nothing. -/
def expThreshold : ExperienceLevel → Nat
  | ExperienceLevel.entry => 0
  | ExperienceLevel.mid => 2
  | ExperienceLevel.senior => 5
  | ExperienceLevel.lead => 8
  | ExperienceLevel.unspecified => 0

/-- Modelled from the spec (4.4): 100 when the resume years reach the
    JD threshold, otherwise scaled down linearly toward 0 with the gap,
    floored at 0. -/
noncomputable def experienceScore (years thr : Nat) : ℝ :=
  if thr ≤ years then 100 else max 0 (100 * (years : ℝ) / (thr : ℝ))

/-- Ordinal rank of an education level, unspecified lowest. -/
def eduOrd : EducationLevel → Nat
  | EducationLevel.unspecified => 0
  | EducationLevel.high_school => 1
  | EducationLevel.associate => 2
  | EducationLevel.bachelor => 3
  | EducationLevel.master => 4
  | EducationLevel.phd => 5

/-- Modelled from the spec (4.4): 100 when the resume level reaches the
    required level, otherwise a fixed penalty of 25 per ordinal step
    below, floored at 0; an unspecified JD requirement scores 100
    unconditionally. -/
noncomputable def educationScore (res jd : EducationLevel) : ℝ :=
  if jd = EducationLevel.unspecified then 100
  else if eduOrd jd ≤ eduOrd res then 100
  else max 0 (100 - 25 * ((eduOrd jd : ℝ) - (eduOrd res : ℝ)))

/-- Clamps a score into the 0 to 100 interval. -/
noncomputable def clamp0100 (x : ℝ) : ℝ := max 0 (min 100 x)

/-- Rounds to one decimal place. -/
noncomputable def roundTo1 (x : ℝ) : ℝ := (round (10 * x) : ℤ) / 10

/- ── Skill-Gap Analyzer (spec 4.5) ── -/

/-- Modelled from the spec (4.5): the fixed remediation template
    table. -/
def recTemplate : List (String × String) :=
  [("docker", "Containerize a sample app and learn Docker Compose."),
   ("aws", "Study for the AWS Cloud Practitioner certification."),
   ("kubernetes", "Complete the Kubernetes basics tutorial."),
   ("ci/cd", "Set up a CI/CD pipeline using GitHub Actions or Jenkins.")]

/-- One recommendation line for a missing skill; an unknown skill falls
    through to the generic template, the lookup never fails. -/
def recommendationFor (tag skill : String) : String :=
  tag ++ " " ++ skill ++ ": " ++
    ((recTemplate.find? (fun p => p.1 = skill)).map (fun p => p.2)).getD
      ("Learn and practice " ++ skill ++ ".")

/-- Modelled from the spec (4.5): one recommendation per missing skill,
    required-missing skills first tagged HIGH, then preferred-missing
    tagged MEDIUM, each group in canonical (sorted) stable order. -/
def recommendations (missingReq missingPref : Finset String) : List String :=
  (missingReq.sort (· ≤ ·)).map (recommendationFor "[HIGH]") ++
    ((missingPref \ missingReq).sort (· ≤ ·)).map (recommendationFor "[MEDIUM]")

/-- MatchResult of the data model (spec section 3). -/
structure MatchResult where
  overall_score : ℝ
  skill_score : ℝ
  experience_score : ℝ
  education_score : ℝ
  tfidf_similarity : ℝ
  matched_skills : Finset String
  missing_skills : Finset String
  skill_gap_technical : Finset String
  skill_gap_soft : Finset String
  recommendations : List String

/-- Modelled from the spec (4.1 to 4.5, 6): the full synchronous,
    side-effect-free matching pipeline over one resume text and one JD
    text. -/
noncomputable def match_one (resume_text jd_text : String) : MatchResult :=
  let rtoks := normalize resume_text
  let jtoks := normalize jd_text
  let pr := parseResume resume_text
  let pj := parseJD jd_text
  let tfidf := 100 * cosineSim rtoks jtoks
  let jdSkills := pj.required_skills ∪ pj.preferred_skills
  let matched := pr.skills ∩ jdSkills
  let missing := jdSkills \ pr.skills
  let direct := directSkillMatch (pr.skills ∩ pj.required_skills).card pj.required_skills.card
  let sscore := direct * 0.70 + tfidf * 0.30
  let escore := experienceScore (pr.years_of_experience.getD 0) (expThreshold pj.experience_level)
  let dscore := educationScore (eduLevelOf rtoks) pj.education_level
  { overall_score := clamp0100 (roundTo1 (sscore * 0.50 + escore * 0.30 + dscore * 0.20))
    skill_score := sscore
    experience_score := escore
    education_score := dscore
    tfidf_similarity := tfidf
    matched_skills := matched
    missing_skills := missing
    skill_gap_technical := missing.filter (fun s => categoryOf s = SkillCategory.technical)
    skill_gap_soft := missing.filter (fun s => categoryOf s = SkillCategory.soft)
    recommendations :=
      recommendations (pj.required_skills \ pr.skills) (pj.preferred_skills \ pr.skills) }

/- ── Batch Ranker (spec 4.6) ── -/

/-- One input item of match_batch: a file name and the outcome of the
    upstream text extraction for it (spec section 6: extraction
    failures surface to the Batch Ranker as a parse error). -/
structure BatchItem where
  file_name : String
  text : Except String String

/-- One error entry of a BatchMatchReport. -/
structure BatchError where
  file_name : String
  error_message : String
deriving DecidableEq

/-- RankedCandidate of the data model: one MatchResult with its file
    name and 1-based rank. -/
structure RankedResult where
  file_name : String
  rank : Nat
  result : MatchResult

/-- BatchMatchReport of the data model (spec section 3). -/
structure BatchMatchReport where
  candidates : List RankedResult
  best_candidate : Option RankedResult
  errors : List BatchError
  total_processed : Nat
  total_errors : Nat

/-- The per-item success branch of the Batch Ranker: a readable item is
    run through the full pipeline. -/
noncomputable def batchOkFn (jd_text : String) (it : BatchItem) :
    Option (String × MatchResult) :=
  match it.text with
  | Except.ok t => some (it.file_name, match_one t jd_text)
  | Except.error _ => none

/-- The per-item failure branch of the Batch Ranker: a failed item
    contributes its file name and error message to the error list. -/
def batchErrFn (it : BatchItem) : Option BatchError :=
  match it.text with
  | Except.ok _ => none
  | Except.error e => some ⟨it.file_name, e⟩

/-- Decidable readability test for one batch item. -/
def isOkItem (it : BatchItem) : Bool :=
  match it.text with
  | Except.ok _ => true
  | Except.error _ => false

/-- Modelled from the spec (4.6): every resume is matched
    independently; per-item failures are recorded and skipped;
    successful results are stable-sorted by overall score descending,
    ranked 1-based, and the top candidate becomes best_candidate;
    total_processed counts successes and total_errors failures. -/
noncomputable def match_batch (jd_text : String) (items : List BatchItem) :
    BatchMatchReport :=
  let successes := items.filterMap (batchOkFn jd_text)
  let errs := items.filterMap batchErrFn
  let sorted := sortByKeyDesc (fun p => p.2.overall_score) successes
  let ranked := sorted.enum.map (fun p => (⟨p.2.1, p.1 + 1, p.2.2⟩ : RankedResult))
  ⟨ranked, ranked.head?, errs, successes.length, errs.length⟩

/- ────────────────────────────────────────────────────────────────────
   Theorems
   ──────────────────────────────────────────────────────────────────── -/

/-- C9: the session key _sk of __env.ts evaluates to 0xE992 (59794) and
    the derived port _dp to 5000, so the "Pipeline integrity check
    failed." guard of matchService.directMatch is unreachable: for all
    inputs the gate passes. -/
theorem env_integrity_gate_unreachable :
    _sk = 0xE992 ∧ _dp = 5000 ∧
      ∀ r j : String, directMatchGate r j = Except.ok () := by
  refine ⟨by decide, by decide, fun r j => ?_⟩
  have h : _sk = 0xE992 := by decide
  simp [directMatchGate, h]

/-- C10: the unlock function _ul of __env.ts returns true exactly on
    the one 17-character password decoded from _pw by subtracting _xk
    from each code, and window.__rv_unlocked is set exactly on the
    accepting call. -/
theorem ul_accepts_exactly_decoded_password :
    expectedPwd.length = 17 ∧
      ∀ pwd : String,
        ((_ul pwd).returned = true ↔ pwd = expectedPwd) ∧
          ((_ul pwd).rvUnlockedSet = true ↔ (_ul pwd).returned = true) := by
  refine ⟨by decide, fun pwd => ?_⟩
  by_cases h : pwd = expectedPwd <;> simp [_ul, h]

/-- C1: the overall score of every match result is the 50/30/20
    weighted blend of its skill, experience and education scores,
    rounded to one decimal place and clamped into the 0 to 100
    interval. -/
theorem overall_score_weighted_blend (rt jt : String) :
    (match_one rt jt).overall_score =
      clamp0100 (roundTo1 ((match_one rt jt).skill_score * 0.50 +
        (match_one rt jt).experience_score * 0.30 +
        (match_one rt jt).education_score * 0.20)) := rfl

/-- C7: the skill score of every match result is the 70/30 blend of the
    direct skill match with the TF-IDF similarity, where the direct
    skill match is 100 times the share of required skills matched and
    is 100 outright for a JD with no required skills. -/
theorem skill_score_blend (rt jt : String) :
    (match_one rt jt).skill_score =
        directSkillMatch (((parseResume rt).skills ∩ (parseJD jt).required_skills).card)
          ((parseJD jt).required_skills).card * 0.70 +
        (match_one rt jt).tfidf_similarity * 0.30 ∧
      (∀ m t : Nat, t ≠ 0 → directSkillMatch m t = 100 * (m : ℝ) / (t : ℝ)) ∧
      (∀ m : Nat, directSkillMatch m 0 = 100) := by
  refine ⟨rfl, fun m t ht => ?_, fun m => ?_⟩
  · simp [directSkillMatch, ht]
  · simp [directSkillMatch]

/-- C5: matched skills are the resume skills inside the union of
    required and preferred JD skills, missing skills are that union
    minus the resume skills, and the two sets are disjoint. -/
theorem matched_missing_skills (rt jt : String) :
    (match_one rt jt).matched_skills =
        (parseResume rt).skills ∩
          ((parseJD jt).required_skills ∪ (parseJD jt).preferred_skills) ∧
      (match_one rt jt).missing_skills =
        ((parseJD jt).required_skills ∪ (parseJD jt).preferred_skills) \
          (parseResume rt).skills ∧
      Disjoint (match_one rt jt).matched_skills (match_one rt jt).missing_skills := by
  refine ⟨rfl, rfl, ?_⟩
  rw [Finset.disjoint_left]
  intro s hs hs'
  have h1 : s ∈ (parseResume rt).skills := by
    have := hs
    simp only [match_one, Finset.mem_inter] at this
    exact this.1
  have h2 : s ∉ (parseResume rt).skills := by
    have := hs'
    simp only [match_one, Finset.mem_sdiff] at this
    exact this.2
  exact h2 h1

/-- C6: match_one is deterministic: two invocations on identical
    resume and JD texts return identical MatchResult values (the model
    of the engine is a pure function of its two inputs). -/
theorem match_one_deterministic (r1 j1 r2 j2 : String)
    (hr : r1 = r2) (hj : j1 = j2) : match_one r1 j1 = match_one r2 j2 := by
  subst hr; subst hj; rfl

/-- Term frequencies are nonnegative. -/
theorem tf_nonneg (doc : List String) (t : String) : 0 ≤ tf doc t := by
  unfold tf
  split
  · exact le_refl 0
  · positivity

/-- The document frequency over the two-document corpus is at most 2. -/
theorem df_le_two (r j : List String) (t : String) : df r j t ≤ 2 := by
  unfold df
  split <;> split <;> omega

/-- The smoothed IDF is nonnegative for every document frequency that
    can occur in the two-document corpus. -/
theorem idf_nonneg {d : Nat} (hd : d ≤ 2) : 0 ≤ idf d := by
  unfold idf
  have h1 : (1 : ℝ) ≤ 3 / (1 + (d : ℝ)) := by
    rw [le_div_iff₀ (by positivity)]
    have : (d : ℝ) ≤ 2 := by exact_mod_cast hd
    linarith
  have := Real.log_nonneg h1
  linarith

/-- TF-IDF weights are nonnegative. -/
theorem tfidfWeight_nonneg (r j doc : List String) (t : String) :
    0 ≤ tfidfWeight r j doc t := by
  unfold tfidfWeight
  have h1 : (0 : ℝ) ≤ (tf doc t : ℝ) := by exact_mod_cast tf_nonneg doc t
  exact mul_nonneg h1 (idf_nonneg (df_le_two r j t))

/-- Dot products of TF-IDF vectors are nonnegative. -/
theorem dotProd_nonneg (r j a b : List String) : 0 ≤ dotProd r j a b := by
  unfold dotProd
  exact Finset.sum_nonneg fun t _ =>
    mul_nonneg (tfidfWeight_nonneg r j a t) (tfidfWeight_nonneg r j b t)

/-- Cauchy-Schwarz for the TF-IDF vectors: the cross dot product is at
    most the product of the vector norms. -/
theorem dotProd_le_sqrt_mul_sqrt (r j a b : List String) :
    dotProd r j a b ≤
      Real.sqrt (dotProd r j a a) * Real.sqrt (dotProd r j b b) := by
  have h := Real.sum_mul_le_sqrt_mul_sqrt (vocab r j)
    (fun t => tfidfWeight r j a t) (fun t => tfidfWeight r j b t)
  unfold dotProd
  calc (∑ t ∈ vocab r j, tfidfWeight r j a t * tfidfWeight r j b t)
      ≤ Real.sqrt (∑ t ∈ vocab r j, tfidfWeight r j a t ^ 2) *
          Real.sqrt (∑ t ∈ vocab r j, tfidfWeight r j b t ^ 2) := h
    _ = _ := by simp [sq]

/-- The cosine similarity lies in the unit interval. -/
theorem cosineSim_mem_unit (r j : List String) :
    0 ≤ cosineSim r j ∧ cosineSim r j ≤ 1 := by
  unfold cosineSim
  split
  · exact ⟨le_refl 0, by norm_num⟩
  · rename_i h
    push_neg at h
    have ha : 0 < dotProd r j r r := lt_of_le_of_ne (dotProd_nonneg r j r r) (Ne.symm h.1)
    have hb : 0 < dotProd r j j j := lt_of_le_of_ne (dotProd_nonneg r j j j) (Ne.symm h.2)
    have hden : 0 < Real.sqrt (dotProd r j r r) * Real.sqrt (dotProd r j j j) :=
      mul_pos (Real.sqrt_pos.mpr ha) (Real.sqrt_pos.mpr hb)
    constructor
    · exact div_nonneg (dotProd_nonneg r j r j) (le_of_lt hden)
    · rw [div_le_one hden]
      exact dotProd_le_sqrt_mul_sqrt r j r j

/-- The direct skill match lies in the 0 to 100 range whenever the
    matched count does not exceed the total count. -/
theorem directSkillMatch_mem_range {m t : Nat} (h : m ≤ t) :
    0 ≤ directSkillMatch m t ∧ directSkillMatch m t ≤ 100 := by
  unfold directSkillMatch
  split
  · norm_num
  · rename_i ht
    have ht' : (0 : ℝ) < (t : ℝ) := by
      have : 0 < t := Nat.pos_of_ne_zero ht
      exact_mod_cast this
    constructor
    · positivity
    · rw [mul_div_assoc]
      have hle : (m : ℝ) / (t : ℝ) ≤ 1 := by
        rw [div_le_one ht']
        exact_mod_cast h
      nlinarith

/-- The experience score lies in the 0 to 100 range. -/
theorem experienceScore_mem_range (years thr : Nat) :
    0 ≤ experienceScore years thr ∧ experienceScore years thr ≤ 100 := by
  unfold experienceScore
  split
  · norm_num
  · rename_i hlt
    push_neg at hlt
    have hthr : (0 : ℝ) < (thr : ℝ) := by
      have : 0 < thr := lt_of_le_of_lt (Nat.zero_le years) hlt
      exact_mod_cast this
    refine ⟨le_max_left 0 _, max_le (by norm_num) ?_⟩
    rw [mul_div_assoc]
    have hle : (years : ℝ) / (thr : ℝ) ≤ 1 := by
      rw [div_le_one hthr]
      exact_mod_cast le_of_lt hlt
    nlinarith

/-- The education score lies in the 0 to 100 range. -/
theorem educationScore_mem_range (res jd : EducationLevel) :
    0 ≤ educationScore res jd ∧ educationScore res jd ≤ 100 := by
  unfold educationScore
  split
  · norm_num
  · split
    · norm_num
    · rename_i h1 h2
      push_neg at h2
      have : (eduOrd res : ℝ) ≤ (eduOrd jd : ℝ) := by
        exact_mod_cast le_of_lt h2
      refine ⟨le_max_left 0 _, max_le (by norm_num) (by linarith)⟩

/-- The clamp keeps every value inside the 0 to 100 range. -/
theorem clamp0100_mem_range (x : ℝ) : 0 ≤ clamp0100 x ∧ clamp0100 x ≤ 100 := by
  unfold clamp0100
  constructor
  · exact le_max_left 0 _
  · exact max_le (by norm_num) (min_le_left 100 x)

/-- C4: for every pair of input texts, all five numeric fields of the
    match result (overall, skill, experience, education and TF-IDF
    similarity scores) lie in the 0 to 100 interval. -/
theorem all_scores_in_range (rt jt : String) :
    (0 ≤ (match_one rt jt).overall_score ∧ (match_one rt jt).overall_score ≤ 100) ∧
      (0 ≤ (match_one rt jt).skill_score ∧ (match_one rt jt).skill_score ≤ 100) ∧
      (0 ≤ (match_one rt jt).experience_score ∧
        (match_one rt jt).experience_score ≤ 100) ∧
      (0 ≤ (match_one rt jt).education_score ∧
        (match_one rt jt).education_score ≤ 100) ∧
      (0 ≤ (match_one rt jt).tfidf_similarity ∧
        (match_one rt jt).tfidf_similarity ≤ 100) := by
  have hcos := cosineSim_mem_unit (normalize rt) (normalize jt)
  have htf : 0 ≤ (match_one rt jt).tfidf_similarity ∧
      (match_one rt jt).tfidf_similarity ≤ 100 := by
    show 0 ≤ 100 * cosineSim (normalize rt) (normalize jt) ∧
      100 * cosineSim (normalize rt) (normalize jt) ≤ 100
    constructor <;> nlinarith [hcos.1, hcos.2]
  have hdsm := directSkillMatch_mem_range
    (Finset.card_le_card
      (Finset.inter_subset_right :
        (parseResume rt).skills ∩ (parseJD jt).required_skills ⊆
          (parseJD jt).required_skills))
  have hskill : 0 ≤ (match_one rt jt).skill_score ∧
      (match_one rt jt).skill_score ≤ 100 := by
    show 0 ≤ directSkillMatch _ _ * 0.70 + 100 * cosineSim _ _ * 0.30 ∧
      directSkillMatch _ _ * 0.70 + 100 * cosineSim _ _ * 0.30 ≤ 100
    constructor <;> nlinarith [hdsm.1, hdsm.2, hcos.1, hcos.2]
  have hexp := experienceScore_mem_range
    ((parseResume rt).years_of_experience.getD 0)
    (expThreshold (parseJD jt).experience_level)
  have hedu := educationScore_mem_range (eduLevelOf (normalize rt))
    (parseJD jt).education_level
  exact ⟨clamp0100_mem_range _, hskill, hexp, hedu, htf⟩

/-- Membership in an insertion is membership in the inserted element or
    the original list. -/
theorem mem_insertByKeyDesc {α β : Type} [LinearOrder β] (key : α → β) (x z : α) :
    ∀ l : List α, z ∈ insertByKeyDesc key x l ↔ z = x ∨ z ∈ l
  | [] => by simp [insertByKeyDesc]
  | y :: ys => by
      unfold insertByKeyDesc
      split
      · simp
      · simp only [List.mem_cons, mem_insertByKeyDesc key x z ys]
        tauto

/-- Inserting preserves the non-increasing arrangement by key. -/
theorem insertByKeyDesc_pairwise {α β : Type} [LinearOrder β] (key : α → β) (x : α) :
    ∀ l : List α, l.Pairwise (fun a b => key b ≤ key a) →
      (insertByKeyDesc key x l).Pairwise (fun a b => key b ≤ key a)
  | [], _ => by simp [insertByKeyDesc]
  | y :: ys, h => by
      unfold insertByKeyDesc
      rw [List.pairwise_cons] at h
      split
      · rename_i hyx
        refine List.Pairwise.cons ?_ (List.Pairwise.cons h.1 h.2)
        intro z hz
        rcases List.mem_cons.mp hz with rfl | hz'
        · exact hyx
        · exact le_trans (h.1 z hz') hyx
      · rename_i hyx
        push_neg at hyx
        refine List.Pairwise.cons ?_ (insertByKeyDesc_pairwise key x ys h.2)
        intro z hz
        rcases (mem_insertByKeyDesc key x z ys).mp hz with rfl | hz'
        · exact le_of_lt hyx
        · exact h.1 z hz'

/-- The stable sort arranges any list non-increasingly by key. -/
theorem sortByKeyDesc_pairwise {α β : Type} [LinearOrder β] (key : α → β) :
    ∀ l : List α, (sortByKeyDesc key l).Pairwise (fun a b => key b ≤ key a)
  | [] => by simp [sortByKeyDesc]
  | x :: xs => by
      unfold sortByKeyDesc
      exact insertByKeyDesc_pairwise key x _ (sortByKeyDesc_pairwise key xs)

/-- Filtering one key class through an insertion: the inserted element
    lands in front of its own class and every other class is
    untouched. -/
theorem filter_insertByKeyDesc {α β : Type} [LinearOrder β] (key : α → β)
    (k : β) (x : α) :
    ∀ l : List α,
      (insertByKeyDesc key x l).filter (fun a => key a = k) =
        if key x = k then x :: l.filter (fun a => key a = k)
        else l.filter (fun a => key a = k)
  | [] => by
      simp only [insertByKeyDesc, List.filter]
      split <;> simp_all
  | y :: ys => by
      unfold insertByKeyDesc
      split
      · rename_i hyx
        by_cases hx : key x = k <;> simp [List.filter_cons, hx]
      · rename_i hyx
        push_neg at hyx
        by_cases hx : key x = k
        · have hy : ¬ key y = k := by
            intro hy
            rw [hy, ← hx] at hyx
            exact lt_irrefl _ hyx
          simp [List.filter_cons, hy, filter_insertByKeyDesc key k x ys, hx]
        · simp [List.filter_cons, filter_insertByKeyDesc key k x ys, hx]

/-- Stability of the sort: each key class comes out in its original
    relative order. -/
theorem filter_sortByKeyDesc {α β : Type} [LinearOrder β] (key : α → β) (k : β) :
    ∀ l : List α,
      (sortByKeyDesc key l).filter (fun a => key a = k) =
        l.filter (fun a => key a = k)
  | [] => rfl
  | x :: xs => by
      unfold sortByKeyDesc
      rw [filter_insertByKeyDesc key k x _, filter_sortByKeyDesc key k xs,
        List.filter_cons]
      split <;> simp_all

/-- Membership through the stable sort. -/
theorem mem_sortByKeyDesc {α β : Type} [LinearOrder β] (key : α → β) (z : α) :
    ∀ l : List α, z ∈ sortByKeyDesc key l ↔ z ∈ l
  | [] => Iff.rfl
  | x :: xs => by
      unfold sortByKeyDesc
      rw [mem_insertByKeyDesc key x z _, mem_sortByKeyDesc key z xs, List.mem_cons]

/-- The second component of an enumerated pair belongs to the list. -/
theorem snd_mem_of_mem_enumFrom {α : Type} {p : Nat × α} :
    ∀ (l : List α) (n : Nat), p ∈ l.enumFrom n → p.2 ∈ l
  | [], _, h => by simp at h
  | x :: xs, n, h => by
      simp only [List.enumFrom, List.mem_cons] at h
      rcases h with rfl | h'
      · exact List.mem_cons_self x xs
      · exact List.mem_cons_of_mem x (snd_mem_of_mem_enumFrom xs (n + 1) h')

/-- Decidable per-entry statement that a successful directMatch outcome
    carries a nonnegative overall score (the backend guarantees scores
    in the 0 to 100 range). -/
def okEntryScoreNonneg (p : String × Except String JsMatchResult) : Bool :=
  match p.2 with
  | Except.ok res => decide (0 ≤ res.overall_score)
  | Except.error _ => true

/-- Every candidate built by the loop from nonnegative scores has a
    nonnegative rounded matchScore. -/
theorem buildRanked_matchScore_nonneg
    (inputs : List (String × Except String JsMatchResult))
    (hnn : ∀ p ∈ inputs, okEntryScoreNonneg p = true) :
    ∀ c ∈ buildRanked inputs, 0 ≤ c.matchScore := by
  intro c hc
  unfold buildRanked at hc
  rcases List.mem_map.mp hc with ⟨p, hp, rfl⟩
  have hmem : p.2 ∈ inputs := snd_mem_of_mem_enumFrom inputs 0 hp
  have hok := hnn p.2 hmem
  rcases p with ⟨i, name, r⟩
  cases r with
  | ok res =>
      have h0 : 0 ≤ res.overall_score := by
        have : decide (0 ≤ res.overall_score) = true := hok
        exact of_decide_eq_true this
      show (0 : ℤ) ≤ jsRound res.overall_score
      unfold jsRound
      rw [Int.le_floor]
      push_cast
      linarith
  | error e => exact le_refl 0

/-- C2 (amended): the candidates list produced by handleRankCandidates
    is non-increasing in matchScore = Math.round(overall_score); within
    each matchScore class (so in particular for equal overall_score)
    the original submission order is preserved; and with the default
    filters the results table displays the sorted candidates with
    1-indexed ranks in order. -/
theorem rankCandidates_sorted_stable_ranked
    (inputs : List (String × Except String JsMatchResult))
    (hnn : ∀ p ∈ inputs, okEntryScoreNonneg p = true) :
    (rankCandidates inputs).Pairwise (fun a b => b.matchScore ≤ a.matchScore) ∧
      (∀ k : ℤ,
        (rankCandidates inputs).filter (fun c => c.matchScore = k) =
          (buildRanked inputs).filter (fun c => c.matchScore = k)) ∧
      filteredCandidates (rankCandidates inputs) 0 "" = rankCandidates inputs ∧
      displayRows (rankCandidates inputs) 0 "" =
        (rankCandidates inputs).enum.map (fun p => (p.1 + 1, p.2)) := by
  have hsc : ∀ c ∈ rankCandidates inputs, (0 : ℤ) ≤ c.matchScore := by
    intro c hc
    have hc' : c ∈ buildRanked inputs := by
      unfold rankCandidates at hc
      exact (mem_sortByKeyDesc _ c _).mp hc
    exact buildRanked_matchScore_nonneg inputs hnn c hc'
  have hfilterAll : filteredCandidates (rankCandidates inputs) 0 "" =
      rankCandidates inputs := by
    unfold filteredCandidates
    have h1 : (rankCandidates inputs).filter
        (fun c => decide ((0 : ℤ) ≤ c.matchScore)) = rankCandidates inputs :=
      List.filter_eq_self.mpr (fun c hc => decide_eq_true (hsc c hc))
    rw [h1]
    exact List.filter_eq_self.mpr (fun c hc => by simp)
  refine ⟨sortByKeyDesc_pairwise _ _, fun k => filter_sortByKeyDesc _ k _, hfilterAll, ?_⟩
  unfold displayRows
  rw [hfilterAll]

/-- Witness for the amended C2 at a concrete two-file batch (one
    success, one rejected request). -/
theorem rankCandidates_sorted_stable_ranked_witness :
    (∀ p ∈ [("a.pdf", Except.ok (⟨69, ["python"], [], []⟩ : JsMatchResult)),
            ("b.pdf", Except.error "Network Error")],
        okEntryScoreNonneg p = true) ∧
      (rankCandidates
          [("a.pdf", Except.ok (⟨69, ["python"], [], []⟩ : JsMatchResult)),
           ("b.pdf", Except.error "Network Error")]).Pairwise
        (fun a b => b.matchScore ≤ a.matchScore) :=
  ⟨by decide, (rankCandidates_sorted_stable_ranked _ (by decide)).1⟩

/-- The concrete two-file batch refuting C2 as stated: both overall
    scores round to 68, so the stable sort keeps submission order even
    though the first overall score is strictly smaller. -/
def c2Inputs : List (String × Except String JsMatchResult) :=
  [("a.pdf", Except.ok ⟨341 / 5, [], [], []⟩),
   ("b.pdf", Except.ok ⟨342 / 5, [], [], []⟩)]

/-- C2 counterexample: on c2Inputs the candidates sequence produced by
    handleRankCandidates carries overall scores 68.2 then 68.4, which
    is not non-increasing by overall_score, refuting the claim as
    stated (the sort compares the rounded matchScore, and 68.2 and 68.4
    both round to 68). -/
theorem rankCandidates_not_sorted_by_overall :
    (rankCandidates c2Inputs).map overallOf = [341 / 5, 342 / 5] ∧
      ¬ (rankCandidates c2Inputs).Pairwise
          (fun a b => overallOf b ≤ overallOf a) := by
  have h68a : jsRound (341 / 5) = 68 := by norm_num [jsRound]
  have h68b : jsRound (342 / 5) = 68 := by norm_num [jsRound]
  have hr : rankCandidates c2Inputs =
      [rankedEntry 0 "a.pdf" (Except.ok ⟨341 / 5, [], [], []⟩),
       rankedEntry 1 "b.pdf" (Except.ok ⟨342 / 5, [], [], []⟩)] := by
    show sortByKeyDesc (fun c => c.matchScore) (buildRanked c2Inputs) = _
    have hb : buildRanked c2Inputs =
        [rankedEntry 0 "a.pdf" (Except.ok ⟨341 / 5, [], [], []⟩),
         rankedEntry 1 "b.pdf" (Except.ok ⟨342 / 5, [], [], []⟩)] := rfl
    rw [hb]
    simp [sortByKeyDesc, insertByKeyDesc, rankedEntry, h68a, h68b]
  rw [hr]
  constructor
  · simp [overallOf, rankedEntry]
  · simp only [List.pairwise_cons, List.not_mem_nil, List.Pairwise.nil,
      List.mem_singleton, List.mem_cons, overallOf, rankedEntry]
    intro hpw
    have := hpw.1 _ (Or.inl rfl)
    simp only [overallOf] at this
    norm_num at this

/-- Readable items never contribute an error entry. -/
theorem filterMap_batchErrFn_nil :
    ∀ l : List BatchItem, (∀ it ∈ l, isOkItem it = true) →
      l.filterMap batchErrFn = []
  | [], _ => rfl
  | it :: rest, h => by
      have hit := h it (List.mem_cons_self it rest)
      have hrest := filterMap_batchErrFn_nil rest
        (fun x hx => h x (List.mem_cons_of_mem it hx))
      cases htext : it.text with
      | ok t =>
          rw [List.filterMap_cons]
          have : batchErrFn it = none := by simp [batchErrFn, htext]
          rw [this]
          exact hrest
      | error e =>
          exfalso
          rw [isOkItem, htext] at hit
          cases hit

/-- Readable items each contribute exactly one successful result. -/
theorem filterMap_batchOkFn_length (jd : String) :
    ∀ l : List BatchItem, (∀ it ∈ l, isOkItem it = true) →
      (l.filterMap (batchOkFn jd)).length = l.length
  | [], _ => rfl
  | it :: rest, h => by
      have hit := h it (List.mem_cons_self it rest)
      have hrest := filterMap_batchOkFn_length jd rest
        (fun x hx => h x (List.mem_cons_of_mem it hx))
      cases htext : it.text with
      | ok t =>
          rw [List.filterMap_cons]
          have : batchOkFn jd it = some (it.file_name, match_one t jd) := by
            simp [batchOkFn, htext]
          rw [this]
          simp [hrest]
      | error e =>
          exfalso
          rw [isOkItem, htext] at hit
          cases hit

/-- The successful results of a batch do not depend on the failed
    items. -/
theorem filterMap_batchOkFn_drop_bad (jd : String) (pre post : List BatchItem)
    (bad : BatchItem) (e : String) (hbad : bad.text = Except.error e) :
    (pre ++ bad :: post).filterMap (batchOkFn jd) =
      (pre ++ post).filterMap (batchOkFn jd) := by
  have hnone : batchOkFn jd bad = none := by simp [batchOkFn, hbad]
  rw [List.filterMap_append, List.filterMap_append, List.filterMap_cons, hnone]

/-- C3: a batch with exactly one unreadable resume among otherwise
    readable ones completes with total_processed = N - 1 and
    total_errors = 1, the single error entry names the bad file with
    its error message, and the ranked candidates (results, order and
    ranks) are exactly those of the batch without the bad file. -/
theorem match_batch_isolates_one_bad_file (jd : String)
    (pre post : List BatchItem) (bad : BatchItem) (e : String)
    (hbad : bad.text = Except.error e)
    (hpre : ∀ it ∈ pre, isOkItem it = true)
    (hpost : ∀ it ∈ post, isOkItem it = true) :
    (match_batch jd (pre ++ bad :: post)).total_processed =
        (pre ++ bad :: post).length - 1 ∧
      (match_batch jd (pre ++ bad :: post)).total_errors = 1 ∧
      (match_batch jd (pre ++ bad :: post)).errors =
        [⟨bad.file_name, e⟩] ∧
      (match_batch jd (pre ++ bad :: post)).candidates =
        (match_batch jd (pre ++ post)).candidates := by
  have herr : (pre ++ bad :: post).filterMap batchErrFn =
      [(⟨bad.file_name, e⟩ : BatchError)] := by
    have h1 : batchErrFn bad = some ⟨bad.file_name, e⟩ := by
      simp [batchErrFn, hbad]
    rw [List.filterMap_append, List.filterMap_cons, h1,
      filterMap_batchErrFn_nil pre hpre, filterMap_batchErrFn_nil post hpost]
    rfl
  have hsucc := filterMap_batchOkFn_drop_bad jd pre post bad e hbad
  refine ⟨?_, ?_, ?_, ?_⟩
  · show ((pre ++ bad :: post).filterMap (batchOkFn jd)).length =
      (pre ++ bad :: post).length - 1
    rw [hsucc, List.filterMap_append, List.length_append,
      filterMap_batchOkFn_length jd pre hpre,
      filterMap_batchOkFn_length jd post hpost]
    simp only [List.length_append, List.length_cons]
    omega
  · show ((pre ++ bad :: post).filterMap batchErrFn).length = 1
    rw [herr]
    rfl
  · show (pre ++ bad :: post).filterMap batchErrFn = [⟨bad.file_name, e⟩]
    exact herr
  · show (sortByKeyDesc (fun p => p.2.overall_score)
        ((pre ++ bad :: post).filterMap (batchOkFn jd))).enum.map
          (fun p => (⟨p.2.1, p.1 + 1, p.2.2⟩ : RankedResult)) =
      (sortByKeyDesc (fun p => p.2.overall_score)
        ((pre ++ post).filterMap (batchOkFn jd))).enum.map
          (fun p => (⟨p.2.1, p.1 + 1, p.2.2⟩ : RankedResult))
    rw [hsucc]

/-- Witness for C3: a three-file batch whose middle file is
    unreadable reports exactly one error. -/
theorem match_batch_isolates_one_bad_file_witness :
    ((⟨"bad.pdf", Except.error "Unreadable file"⟩ : BatchItem).text =
        Except.error "Unreadable file") ∧
      (∀ it ∈ [(⟨"a.pdf", Except.ok "python developer"⟩ : BatchItem)],
        isOkItem it = true) ∧
      (∀ it ∈ [(⟨"b.pdf", Except.ok "java engineer"⟩ : BatchItem)],
        isOkItem it = true) ∧
      (match_batch "senior python developer"
          ([(⟨"a.pdf", Except.ok "python developer"⟩ : BatchItem)] ++
            (⟨"bad.pdf", Except.error "Unreadable file"⟩ : BatchItem) ::
              [(⟨"b.pdf", Except.ok "java engineer"⟩ : BatchItem)])).total_errors =
        1 :=
  ⟨rfl, by decide, by decide,
    (match_batch_isolates_one_bad_file "senior python developer"
      [⟨"a.pdf", Except.ok "python developer"⟩]
      [⟨"b.pdf", Except.ok "java engineer"⟩]
      ⟨"bad.pdf", Except.error "Unreadable file"⟩
      "Unreadable file" rfl (by decide) (by decide)).2.1⟩

/-- String concatenation concatenates the character data. -/
theorem string_data_append (a b : String) : (a ++ b).data = a.data ++ b.data := rfl

/-- Defining equation of the tokenizer on the empty stream. -/
theorem tokenizeAux_nil (acc : List Char) :
    tokenizeAux [] acc = if acc.isEmpty then [] else [acc.reverse] := rfl

/-- Defining equation of the tokenizer on a character. -/
theorem tokenizeAux_cons (c : Char) (cs acc : List Char) :
    tokenizeAux (c :: cs) acc =
      if keepChar c then tokenizeAux cs (c :: acc)
      else if acc.isEmpty then tokenizeAux cs []
      else acc.reverse :: tokenizeAux cs [] := rfl

/-- Tokenizing around a space splits into the two tokenizations. -/
theorem tokenizeAux_append_space (b : List Char) :
    ∀ (xs : List Char) (acc : List Char),
      tokenizeAux (xs ++ ' ' :: b) acc = tokenizeAux xs acc ++ tokenizeAux b []
  | [], acc => by
      have hk : keepChar ' ' = false := by decide
      simp only [List.nil_append, tokenizeAux_cons, tokenizeAux_nil, hk]
      cases hacc : acc.isEmpty <;> simp [hacc]
  | c :: xs, acc => by
      simp only [List.cons_append, tokenizeAux_cons]
      cases hk : keepChar c with
      | true =>
          simp only [if_true]
          exact tokenizeAux_append_space b xs (c :: acc)
      | false =>
          simp only [Bool.false_eq_true, if_false]
          cases hacc : acc.isEmpty with
          | true =>
              simp only [if_true]
              exact tokenizeAux_append_space b xs []
          | false =>
              simp only [Bool.false_eq_true, if_false, List.cons_append]
              rw [tokenizeAux_append_space b xs []]

/-- The Normalizer distributes over concatenation at a space: the
    normalized tokens of "a b" are those of a followed by those of
    b. -/
theorem normalize_append (a b : String) :
    normalize (a ++ " " ++ b) = normalize a ++ normalize b := by
  unfold normalize
  have hd : (a ++ " " ++ b).data = a.data ++ ' ' :: b.data := by
    rw [string_data_append, string_data_append]
    simp
  have hsp : toLowerChar ' ' = ' ' := by decide
  rw [hd, List.map_append, List.map_cons, hsp, tokenizeAux_append_space,
    List.map_append, List.filter_append, List.map_append]

/-- Skill extraction is monotone in the token stream. -/
theorem extractSkills_mono {t1 t2 : List String} (h : ∀ x ∈ t1, x ∈ t2) :
    extractSkills t1 ⊆ extractSkills t2 := by
  intro s hs
  unfold extractSkills at hs ⊢
  simp only [List.mem_toFinset, List.mem_map, List.mem_filter] at hs ⊢
  obtain ⟨e, ⟨he, hcond⟩, rfl⟩ := hs
  refine ⟨e, ⟨he, ?_⟩, rfl⟩
  simp only [Bool.or_eq_true, decide_eq_true_eq, List.any_eq_true] at hcond ⊢
  rcases hcond with hcan | ⟨al, hal, halmem⟩
  · exact Or.inl (h _ hcan)
  · exact Or.inr ⟨al, hal, h _ halmem⟩

/-- The direct skill match is monotone in the matched count. -/
theorem directSkillMatch_mono {m m' t : Nat} (h : m ≤ m') :
    directSkillMatch m t ≤ directSkillMatch m' t := by
  unfold directSkillMatch
  split
  · exact le_refl _
  · rename_i ht
    have ht' : (0 : ℝ) < (t : ℝ) := by
      have : 0 < t := Nat.pos_of_ne_zero ht
      exact_mod_cast this
    rw [mul_div_assoc, mul_div_assoc]
    have hmm : (m : ℝ) ≤ (m' : ℝ) := by exact_mod_cast h
    have : (m : ℝ) / (t : ℝ) ≤ (m' : ℝ) / (t : ℝ) := by
      rw [div_le_div_iff_of_pos_right ht']
      exact hmm
    nlinarith

/-- C8 (amended): appending a required skill's canonical token to the
    resume text (holding the JD fixed) never shrinks the matched
    required-skill set and never decreases the direct skill-match
    component of the skill score.  (The blended skill_score itself can
    decrease, because the TF-IDF similarity can drop; see the
    counterexample.) -/
theorem append_required_skill_direct_monotone (rt jt s : String)
    (hs : s ∈ (parseJD jt).required_skills) :
    ((parseResume rt).skills ∩ (parseJD jt).required_skills ⊆
        (parseResume (rt ++ " " ++ s)).skills ∩ (parseJD jt).required_skills) ∧
      directSkillMatch
          (((parseResume rt).skills ∩ (parseJD jt).required_skills).card)
          ((parseJD jt).required_skills).card ≤
        directSkillMatch
          (((parseResume (rt ++ " " ++ s)).skills ∩
              (parseJD jt).required_skills).card)
          ((parseJD jt).required_skills).card := by
  have hskills : (parseResume rt).skills ⊆ (parseResume (rt ++ " " ++ s)).skills := by
    show extractSkills (normalize rt) ⊆ extractSkills (normalize (rt ++ " " ++ s))
    rw [normalize_append]
    exact extractSkills_mono (fun x hx => List.mem_append_left _ hx)
  have hsub : (parseResume rt).skills ∩ (parseJD jt).required_skills ⊆
      (parseResume (rt ++ " " ++ s)).skills ∩ (parseJD jt).required_skills :=
    Finset.inter_subset_inter hskills (Finset.Subset.refl _)
  exact ⟨hsub, directSkillMatch_mono (Finset.card_le_card hsub)⟩

/-- Witness for the amended C8 at concrete inputs. -/
theorem append_required_skill_direct_monotone_witness :
    ("java" ∈ (parseJD "java python").required_skills) ∧
      directSkillMatch
          (((parseResume "python").skills ∩
              (parseJD "java python").required_skills).card)
          ((parseJD "java python").required_skills).card ≤
        directSkillMatch
          (((parseResume ("python" ++ " " ++ "java")).skills ∩
              (parseJD "java python").required_skills).card)
          ((parseJD "java python").required_skills).card :=
  ⟨by decide,
    (append_required_skill_direct_monotone "python" "java python" "java"
      (by decide)).2⟩

/-- The smoothed IDF of a term present in both documents is 1. -/
theorem idf_two : idf 2 = 1 := by
  unfold idf
  norm_num [Real.log_one]

/-- C8 counterexample: for the resume text "java python" and the JD
    text "java python", the skill java is required, yet appending its
    canonical token to the resume strictly lowers skill_score: the
    direct match stays at 100 while the TF-IDF cosine drops below 1
    (the resume vector is no longer parallel to the JD vector). -/
theorem append_required_skill_lowers_skill_score :
    "java" ∈ (parseJD "java python").required_skills ∧
      (match_one ("java python" ++ " " ++ "java") "java python").skill_score <
        (match_one "java python" "java python").skill_score := by
  have hn1 : normalize "java python" = ["java", "python"] := by decide
  have hn2 : normalize ("java python" ++ " " ++ "java") =
      ["java", "python", "java"] := by decide
  have hc1 : (((parseResume "java python").skills ∩
      (parseJD "java python").required_skills)).card = 2 := by decide
  have hc2 : ((parseJD "java python").required_skills).card = 2 := by decide
  have hc3 : (((parseResume ("java python" ++ " " ++ "java")).skills ∩
      (parseJD "java python").required_skills)).card = 2 := by decide
  -- document frequencies: every term occurs in both documents
  have hdfa1 : df ["java", "python", "java"] ["java", "python"] "java" = 2 := by decide
  have hdfa2 : df ["java", "python", "java"] ["java", "python"] "python" = 2 := by decide
  have hdfb1 : df ["java", "python"] ["java", "python"] "java" = 2 := by decide
  have hdfb2 : df ["java", "python"] ["java", "python"] "python" = 2 := by decide
  -- term frequencies
  have htA1 : tf ["java", "python", "java"] "java" = 2 / 3 := by
    have h : (["java", "python", "java"] : List String).count "java" = 2 := by decide
    unfold tf
    rw [h]
    norm_num
  have htA2 : tf ["java", "python", "java"] "python" = 1 / 3 := by
    have h : (["java", "python", "java"] : List String).count "python" = 1 := by decide
    unfold tf
    rw [h]
    norm_num
  have htB1 : tf ["java", "python"] "java" = 1 / 2 := by
    have h : (["java", "python"] : List String).count "java" = 1 := by decide
    unfold tf
    rw [h]
    norm_num
  have htB2 : tf ["java", "python"] "python" = 1 / 2 := by
    have h : (["java", "python"] : List String).count "python" = 1 := by decide
    unfold tf
    rw [h]
    norm_num
  have hvA : vocab ["java", "python", "java"] ["java", "python"] =
      insert "java" ({"python"} : Finset String) := by decide
  have hvB : vocab ["java", "python"] ["java", "python"] =
      insert "java" ({"python"} : Finset String) := by decide
  have hnotmem : ("java" : String) ∉ ({"python"} : Finset String) := by decide
  -- the three dot products of the appended corpus
  have hA : dotProd ["java", "python", "java"] ["java", "python"]
      ["java", "python", "java"] ["java", "python"] = 1 / 2 := by
    unfold dotProd
    rw [hvA, Finset.sum_insert hnotmem, Finset.sum_singleton]
    simp only [tfidfWeight, hdfa1, hdfa2, idf_two, htA1, htA2, htB1, htB2]
    push_cast
    norm_num
  have hB : dotProd ["java", "python", "java"] ["java", "python"]
      ["java", "python", "java"] ["java", "python", "java"] = 5 / 9 := by
    unfold dotProd
    rw [hvA, Finset.sum_insert hnotmem, Finset.sum_singleton]
    simp only [tfidfWeight, hdfa1, hdfa2, idf_two, htA1, htA2]
    push_cast
    norm_num
  have hC : dotProd ["java", "python", "java"] ["java", "python"]
      ["java", "python"] ["java", "python"] = 1 / 2 := by
    unfold dotProd
    rw [hvA, Finset.sum_insert hnotmem, Finset.sum_singleton]
    simp only [tfidfWeight, hdfa1, hdfa2, idf_two, htB1, htB2]
    push_cast
    norm_num
  -- the dot product of the identical-documents corpus
  have hN : dotProd ["java", "python"] ["java", "python"]
      ["java", "python"] ["java", "python"] = 1 / 2 := by
    unfold dotProd
    rw [hvB, Finset.sum_insert hnotmem, Finset.sum_singleton]
    simp only [tfidfWeight, hdfb1, hdfb2, idf_two, htB1, htB2]
    push_cast
    norm_num
  -- cosine of the identical documents is 1
  have hcosb : cosineSim ["java", "python"] ["java", "python"] = 1 := by
    unfold cosineSim
    rw [hN]
    rw [if_neg (by norm_num)]
    rw [Real.mul_self_sqrt (by norm_num : (0 : ℝ) ≤ 1 / 2)]
    norm_num
  -- cosine after the append is strictly below 1
  have hcosa : cosineSim ["java", "python", "java"] ["java", "python"] < 1 := by
    unfold cosineSim
    rw [hA, hB, hC]
    rw [if_neg (by norm_num)]
    rw [← Real.sqrt_mul (by norm_num : (0 : ℝ) ≤ 5 / 9)]
    rw [div_lt_one (Real.sqrt_pos.mpr (by norm_num))]
    rw [show (5 / 9 : ℝ) * (1 / 2) = 5 / 18 by norm_num]
    rw [Real.lt_sqrt (by norm_num : (0 : ℝ) ≤ 1 / 2)]
    norm_num
  have hb : (match_one "java python" "java python").skill_score = 100 := by
    show directSkillMatch
        (((parseResume "java python").skills ∩
            (parseJD "java python").required_skills)).card
        ((parseJD "java python").required_skills).card * 0.70 +
      100 * cosineSim (normalize "java python") (normalize "java python") * 0.30 =
        100
    rw [hc1, hc2, hn1, hcosb]
    unfold directSkillMatch
    norm_num
  have ha : (match_one ("java python" ++ " " ++ "java") "java python").skill_score =
      70 + 30 * cosineSim ["java", "python", "java"] ["java", "python"] := by
    show directSkillMatch
        (((parseResume ("java python" ++ " " ++ "java")).skills ∩
            (parseJD "java python").required_skills)).card
        ((parseJD "java python").required_skills).card * 0.70 +
      100 * cosineSim (normalize ("java python" ++ " " ++ "java"))
          (normalize "java python") * 0.30 = _
    rw [hc3, hc2, hn2, hn1]
    unfold directSkillMatch
    norm_num
    ring
  refine ⟨by decide, ?_⟩
  rw [ha, hb]
  linarith

/-- Witness for C6 at concrete inputs. -/
theorem match_one_deterministic_witness :
    "python developer 5 years" = "python developer 5 years" ∧
      "senior python" = "senior python" ∧
      match_one "python developer 5 years" "senior python" =
        match_one "python developer 5 years" "senior python" :=
  ⟨rfl, rfl, match_one_deterministic _ _ _ _ rfl rfl⟩

end JDMatcher
